import Mathlib

/-!
Shallow embedding of the axe PEG combinator engine (headers/axe/axe_terminal.h and
headers/axe/axe_composite_function.h).

An input range `(i1, i2)` is represented by the numeric position `i1 : Nat` together
with the list `rem : List α` of the elements in `[i1, i2)`; thus `i2 = i1 + rem.length`.
A rule is a function from such a range to a `Result`.
-/

namespace Axe

/-- Modelled from the spec: `axe_result.h` is not under `src/`.  Section 3 of the spec:
`Result` is `\x7b matched: bool, position: Position, start: Position \x7d`; `position` is
the cursor after a successful match, `start` is where matching began. -/
structure Result where
  matched : Bool
  position : Nat
  start : Nat
  deriving Repr, DecidableEq

/-- Modelled from the spec: the two-argument overload of `make_result` (`axe_result.h`
is not under `src/`).  Section 4.1: `start` defaults to `position` when omitted. -/
def make_result (matched : Bool) (position : Nat) : Result :=
  ⟨matched, position, position⟩

/-- Modelled from the spec: the three-argument overload of `make_result` (`axe_result.h`
is not under `src/`).  Section 3 of the spec states that `position` is "unchanged from
input on failure, by convention equal to the starting position", so on failure the
constructed result carries the supplied `start` as its position. -/
def make_result3 (matched : Bool) (position start : Nat) : Result :=
  ⟨matched, if matched then position else start, start⟩

/-- A rule: any value callable with a range, returning a `Result` (spec section 3). -/
abbrev Rule (α : Type) := Nat → List α → Result

variable {α : Type}

/-- The byte-comparison loop shared by `r_bin_t::operator()` (axe_terminal.h:139-140)
and the C-string loop of `r_str_t::operator()` (axe_terminal.h:168-169):
`for(; matched && s < sizeof(T) && i != i2; ++i, ++s) matched = p[s] == *i;`.
Returns the final `matched` flag and the number of elements examined (`s`, also the
distance `i - i1`); note that `++i, ++s` run even after the comparison that clears
`matched`. -/
def r_bin_go [DecidableEq α] : Bool → List α → List α → Bool × Nat
  | true, b :: ps, a :: rs =>
    let r := r_bin_go (decide (b = a)) ps rs
    (r.1, r.2 + 1)
  | m, _, _ => (m, 0)

/-- `r_bin_t::operator()` (axe_terminal.h:130-143).  `p` is the byte image of the
fixed value `t` (`sizeof(T) = p.length`).  `bool matched = i1 != i2;` seeds the loop;
the result is `make_result(matched && s == sizeof(T), i, i1)`. -/
def r_bin_run [DecidableEq α] (p : List α) (i1 : Nat) (rem : List α) : Result :=
  let g := r_bin_go (!rem.isEmpty) p rem
  make_result3 (g.1 && decide (g.2 = p.length)) (i1 + g.2) i1

/-- `r_str_t<CharT>::operator()` (axe_terminal.h:157-172).  The stored C-string
pointer `str_` is modelled as `Option (List α)`: `none` is a null pointer, and a
literal carries no embedded terminator, so `str_[s]` is truthy iff `s < lit.length`.
`if(!str_ || !str_[0]) return make_result(true, i1);` is the first branch; otherwise
the loop is the same shape as `r_bin_t`'s and the result is
`make_result(matched && !str_[s], i, i1)`. -/
def r_str_run [DecidableEq α] (str : Option (List α)) (i1 : Nat) (rem : List α) : Result :=
  match str with
  | none => make_result true i1
  | some lit =>
    if lit.isEmpty then make_result true i1
    else
      let g := r_bin_go (!rem.isEmpty) lit rem
      make_result3 (g.1 && decide (g.2 = lit.length)) (i1 + g.2) i1

/-- `r_pred_t::operator()` (axe_terminal.h:245-249):
`i1 != i2 ? make_result(pred_(*i1), i1 + 1, i1) : make_result(false, i1)`. -/
def r_pred_run (pred : α → Bool) (i1 : Nat) (rem : List α) : Result :=
  match rem with
  | [] => make_result false i1
  | a :: _ => make_result3 (pred a) (i1 + 1) i1

/-- `r_predstr_t<Pred, false>::operator()` (axe_terminal.h:261-267):
`for(; in != i2 && pred_(*in); ++in);` scans the maximal satisfying prefix, so
`in - i1 = (rem.takeWhile pred).length`; the result is `make_result(in != i1, in, i1)`. -/
def r_predstr_run (pred : α → Bool) (i1 : Nat) (rem : List α) : Result :=
  let n := (rem.takeWhile pred).length
  make_result3 (decide (n ≠ 0)) (i1 + n) i1

/-- The counting loop of `r_predstr_t<Pred, true>::operator()` (axe_terminal.h:284-286):
`for(; count < max_occurrence_ && in != i2 && pred_(*in); ++in, ++count);`.
The first argument is the remaining headroom `max_occurrence_ - count`. -/
def predCount (pred : α → Bool) : Nat → List α → Nat
  | 0, _ => 0
  | _, [] => 0
  | cap + 1, a :: rs => if pred a then predCount pred cap rs + 1 else 0

/-- `r_predstr_t<Pred, true>::operator()` (axe_terminal.h:282-289): the result is
`make_result(count >= min_occurrence_, in, i1)`. -/
def r_predstr_b_run (pred : α → Bool) (minOcc maxOcc : Nat) (i1 : Nat) (rem : List α) :
    Result :=
  let c := predCount pred maxOcc rem
  make_result3 (decide (minOcc ≤ c)) (i1 + c) i1

/-- The byte-copying loop of `r_var_t::operator()` (axe_terminal.h:306-310):
`for(; s < sizeof(T) && i != i2; ++i, ++s) c[s] = *i;`.  The referenced variable `t`
is modelled as its byte list `var` (`sizeof(T) = var.length`); the loop overwrites a
prefix of it with input bytes.  Returns the new bytes and the count `s` copied. -/
def r_var_go : List α → List α → List α × Nat
  | _ :: vs, a :: rs =>
    let r := r_var_go vs rs
    (a :: r.1, r.2 + 1)
  | var, _ => (var, 0)

/-- `r_var_t::operator()` (axe_terminal.h:302-313): the result is the two-argument
`make_result(s == sizeof(T), i)`; the mutated variable is returned alongside. -/
def r_var_run (var : List α) (i1 : Nat) (rem : List α) : List α × Result :=
  let g := r_var_go var rem
  (g.1, make_result (decide (g.2 = var.length)) (i1 + g.2))

/-- The element loop of `r_array_t::operator()` (axe_terminal.h:327-338).  The array
`buf` is a list of per-element byte lists; `sizeof(T)` is each element's length.
`for(bool matched = true; matched && s < N && i != i2; ++s)` runs `r_var_t` on
`buf_[s]`, takes `i = result.position; matched = result.matched;`, and `++s` runs even
for the failed element-read.  Returns the new array contents, the final `s`, and the
number of input bytes consumed. -/
def r_array_go : List (List α) → List α → List (List α) × Nat × Nat
  | [], _ => ([], 0, 0)
  | el :: els, [] => (el :: els, 0, 0)
  | el :: els, a :: rs =>
    let g := r_var_go el (a :: rs)
    if g.2 = el.length then
      let t := r_array_go els ((a :: rs).drop g.2)
      (g.1 :: t.1, t.2.1 + 1, g.2 + t.2.2)
    else
      (g.1 :: els, 1, g.2)

/-- `r_array_t::operator()` (axe_terminal.h:326-341): the result is the two-argument
`make_result(s == N, i)` where `N = buf.length`. -/
def r_array_run (buf : List (List α)) (i1 : Nat) (rem : List α) :
    List (List α) × Result :=
  let g := r_array_go buf rem
  (g.1, make_result (decide (g.2.1 = buf.length)) (i1 + g.2.2))

/-- The constructor of `r_sequence_t` (axe_terminal.h:356-359): it calls
`buf_.clear();`, replacing whatever the referenced container held. -/
def r_sequence_init (_buf : List (List α)) : List (List α) :=
  []

/-- The read loop of `r_sequence_t::operator()` (axe_terminal.h:364-373):
`for(bool matched = true; matched && i1 != i2 && s < max_occurrence_; ++s)` reads a
default-initialized `T t;` via `r_var_t<T>(t)(i1, i2)`, advances `i1 = r.position;`,
and appends `t` to the container only `if(matched)`.  Elements are byte lists of
length `n = sizeof(T)`; the first `Nat` argument below is the remaining headroom
`max_occurrence_ - s`.  Returns the container contents and the final `i1`. -/
def r_seq_go [Inhabited α] (n : Nat) : Nat → List (List α) → Nat → List α →
    List (List α) × Nat
  | 0, buf, i1, _ => (buf, i1)
  | _ + 1, buf, i1, [] => (buf, i1)
  | fuel + 1, buf, i1, a :: rs =>
    let g := r_var_go (List.replicate n (default : α)) (a :: rs)
    if g.2 = n then
      r_seq_go n fuel (buf ++ [g.1]) (i1 + g.2) ((a :: rs).drop g.2)
    else
      (buf, i1 + g.2)

/-- `r_sequence_t::operator()` (axe_terminal.h:362-376): the result is the
two-argument `make_result(buf_.size() >= min_occurrence_, i1)` over the container
contents left by the loop. -/
def r_sequence_run [Inhabited α] (n minOcc maxOcc : Nat) (buf : List (List α))
    (i1 : Nat) (rem : List α) : List (List α) × Result :=
  let g := r_seq_go n maxOcc buf i1 rem
  (g.1, make_result (decide (minOcc ≤ g.1.length)) g.2)

/-- `r_ident_t::operator()` (axe_terminal.h:382-390): runs
`r_pred_t<is_alpha>` at `(i1, i2)`; if it matched, runs `r_predstr_t<is_alnum>` from
`r.position`.  The character classifiers are abstract predicates here
(`axe_predicate.h` is not under `src/`); the drop recomputes the remainder list for
the new start position. -/
def r_ident_run (isA isN : α → Bool) (i1 : Nat) (rem : List α) : Result :=
  let r := r_pred_run isA i1 rem
  if r.matched then r_predstr_run isN r.position (rem.drop (r.position - i1)) else r

/-- `r_advance_t::operator()` (axe_terminal.h:413-426):
`can_advance = std::distance(i1, i2) >= offset; if(can_advance) std::advance(i1, offset);
return make_result(can_advance, i1);` (non-negative offsets). -/
def r_advance_run (offset : Nat) (i1 : Nat) (rem : List α) : Result :=
  let canAdvance := decide (offset ≤ rem.length)
  make_result canAdvance (if canAdvance then i1 + offset else i1)

/-- `r_end_t::operator()` (axe_terminal.h:397-400): `make_result(i1 == i2, i1)`. -/
def r_end_run (i1 : Nat) (rem : List α) : Result :=
  make_result rem.isEmpty i1

/-- Modelled from the spec: `r_not_t` lives in `axe_composite.h`, which is not under
`src/`.  Section 4.3: "NOT(r) succeeds (non-consuming) iff r would fail; fails
(non-consuming) iff r would match.  Never advances the cursor." -/
def r_not_run (r : Rule α) : Rule α := fun i1 rem =>
  make_result (!(r i1 rem).matched) i1

/-- Modelled from the spec: `r_and_t` lives in `axe_composite.h`, which is not under
`src/`.  Section 4.3: "AND(r1, r2) matches iff r1 matches at the start and r2 matches
from r1's resulting position; result position is r2's, start is the original start.
Short-circuits: r2 not invoked if r1 fails."  Section 4.4: composite evaluation
restores the cursor to the rule's own start on failure. -/
def r_and_run (r1 r2 : Rule α) : Rule α := fun i1 rem =>
  let a := r1 i1 rem
  if a.matched then
    let b := r2 a.position (rem.drop (a.position - i1))
    make_result3 b.matched b.position i1
  else
    make_result3 false i1 i1

/-- `operator-` (axe_composite_function.h:145-147): constructs
`r_and_t<r_not_t<R2>, R1>(r_not_t<R2>(r2), r1)`. -/
def opSub (r1 r2 : Rule α) : Rule α :=
  r_and_run (r_not_run r2) r1

/-- Stated from the claim's words, for comparison with `opSub`: first require `r2` to
fail at `i1` (non-consuming), then match `r1` from `i1`. -/
def diff_spec (r1 r2 : Rule α) : Rule α := fun i1 rem =>
  if (r2 i1 rem).matched then
    make_result3 false i1 i1
  else
    let b := r1 i1 rem
    make_result3 b.matched b.position i1

@[simp] theorem make_result_matched (m : Bool) (p : Nat) : (make_result m p).matched = m := rfl

@[simp] theorem make_result_position (m : Bool) (p : Nat) : (make_result m p).position = p := rfl

@[simp] theorem make_result_start (m : Bool) (p : Nat) : (make_result m p).start = p := rfl

@[simp] theorem make_result3_matched (m : Bool) (p s : Nat) :
    (make_result3 m p s).matched = m := rfl

@[simp] theorem make_result3_start (m : Bool) (p s : Nat) : (make_result3 m p s).start = s := rfl

theorem make_result3_position (m : Bool) (p s : Nat) :
    (make_result3 m p s).position = if m then p else s := rfl

@[simp] theorem make_result3_position_true (p s : Nat) :
    (make_result3 true p s).position = p := rfl

@[simp] theorem make_result3_position_false (p s : Nat) :
    (make_result3 false p s).position = s := rfl

theorem make_result3_position_of_failure (m : Bool) (p s : Nat)
    (h : (make_result3 m p s).matched = false) : (make_result3 m p s).position = s := by
  cases m with
  | false => rfl
  | true => exact absurd h (by simp)

theorem r_var_go_snd (var rem : List α) :
    (r_var_go var rem).2 = min var.length rem.length := by
  induction var generalizing rem with
  | nil => simp [r_var_go]
  | cons v vs ih =>
    cases rem with
    | nil => simp [r_var_go]
    | cons a rs => simp [r_var_go, ih, Nat.succ_min_succ]

theorem r_var_go_fst (var rem : List α) :
    (r_var_go var rem).1 =
      rem.take (min var.length rem.length) ++ var.drop (min var.length rem.length) := by
  induction var generalizing rem with
  | nil => simp [r_var_go]
  | cons v vs ih =>
    cases rem with
    | nil => simp [r_var_go]
    | cons a rs => simp [r_var_go, ih, Nat.succ_min_succ]

theorem predCount_eq (pred : α → Bool) (cap : Nat) (rem : List α) :
    predCount pred cap rem = min cap (rem.takeWhile pred).length := by
  induction rem generalizing cap with
  | nil => cases cap <;> simp [predCount]
  | cons a rs ih =>
    cases cap with
    | zero => simp [predCount]
    | succ c =>
      cases h : pred a <;>
        simp [predCount, List.takeWhile_cons, h, ih, Nat.succ_min_succ]

theorem r_seq_go_fst_append [Inhabited α] (n : Nat) :
    ∀ (fuel : Nat) (buf : List (List α)) (i1 : Nat) (rem : List α),
      ∃ tl, (r_seq_go n fuel buf i1 rem).1 = buf ++ tl := by
  intro fuel
  induction fuel with
  | zero => exact fun buf i1 rem => ⟨[], by simp [r_seq_go]⟩
  | succ f ih =>
    intro buf i1 rem
    cases rem with
    | nil => exact ⟨[], by simp [r_seq_go]⟩
    | cons a rs =>
      simp only [r_seq_go]
      split
      · obtain ⟨tl, h⟩ :=
          ih (buf ++ [(r_var_go (List.replicate n (default : α)) (a :: rs)).1])
            (i1 + (r_var_go (List.replicate n (default : α)) (a :: rs)).2)
            ((a :: rs).drop (r_var_go (List.replicate n (default : α)) (a :: rs)).2)
        exact ⟨[(r_var_go (List.replicate n (default : α)) (a :: rs)).1] ++ tl,
          by rw [h]; simp⟩
      · exact ⟨[], by simp⟩

theorem r_seq_go_le_snd [Inhabited α] (n : Nat) :
    ∀ (fuel : Nat) (buf : List (List α)) (i1 : Nat) (rem : List α),
      i1 ≤ (r_seq_go n fuel buf i1 rem).2 := by
  intro fuel
  induction fuel with
  | zero => intro buf i1 rem; simp [r_seq_go]
  | succ f ih =>
    intro buf i1 rem
    cases rem with
    | nil => simp [r_seq_go]
    | cons a rs =>
      simp only [r_seq_go]
      split
      · exact le_trans (Nat.le_add_right _ _) (ih _ _ _)
      · exact Nat.le_add_right _ _

/-- Claim C1, counterexample: a binary-variable-read of a 2-byte target against a
1-byte input fails, yet its `position` field is `1`, not the original start `0` — the
two-argument `make_result(s == sizeof(T), i)` passes the advanced iterator with no
backtrack argument. -/
theorem claim1_counterexample :
    (r_var_run [(0 : Nat), 0] 0 [7]).2.matched = false ∧
    (r_var_run [(0 : Nat), 0] 0 [7]).2.position ≠ 0 := by
  decide

/-- Claim C1, amended: a failed binary-pattern match (`r_bin_t`) does report
`position = i1` (it passes `i1` as the backtrack argument of `make_result`), but the
binary terminals built on the two-argument `make_result` do not: a failed
binary-variable-read (`r_var_t`) reports `position = i1 + rem.length` — it consumed
every remaining byte — and a failed growable-sequence-read (`r_sequence_t`) reports
the position reached after the bytes it consumed, at or beyond `i1`. -/
theorem claim1_failure_positions {α : Type} [DecidableEq α] [Inhabited α] :
    (∀ (p : List α) (i1 : Nat) (rem : List α),
        (r_bin_run p i1 rem).matched = false → (r_bin_run p i1 rem).position = i1)
  ∧ (∀ (var : List α) (i1 : Nat) (rem : List α),
        (r_var_run var i1 rem).2.matched = false →
        (r_var_run var i1 rem).2.position = i1 + rem.length)
  ∧ (∀ (n minOcc maxOcc : Nat) (buf : List (List α)) (i1 : Nat) (rem : List α),
        i1 ≤ (r_sequence_run n minOcc maxOcc buf i1 rem).2.position) := by
  refine ⟨?_, ?_, ?_⟩
  · intro p i1 rem h
    exact make_result3_position_of_failure _ _ _ h
  · intro var i1 rem h
    have hs := r_var_go_snd var rem
    simp only [r_var_run, make_result_matched, make_result_position,
      decide_eq_false_iff_not] at h ⊢
    omega
  · intro n minOcc maxOcc buf i1 rem
    simpa [r_sequence_run] using r_seq_go_le_snd n maxOcc buf i1 rem

/-- Claim C1, witness for the amended statement at concrete inputs. -/
theorem claim1_witness :
    (r_bin_run [(1 : Nat)] 0 [2]).position = 0 ∧
    (r_var_run [(0 : Nat), 0] 0 [7]).2.position = 0 + [(7 : Nat)].length ∧
    0 ≤ (r_sequence_run 1 0 1 ([] : List (List Nat)) 0 [4]).2.position :=
  ⟨claim1_failure_positions.1 [1] 0 [2] (by decide),
   claim1_failure_positions.2.1 [0, 0] 0 [7] (by decide),
   claim1_failure_positions.2.2 1 0 1 [] 0 [4]⟩

/-- Claim C2, counterexample: a successful binary-variable-read of a 1-byte target
reports `start = 1`, not the input position `0` — the two-argument `make_result`
defaults `start` to the advanced position. -/
theorem claim2_counterexample :
    (r_var_run [(0 : Nat)] 0 [7]).2.matched = true ∧
    (r_var_run [(0 : Nat)] 0 [7]).2.start ≠ 0 := by
  decide

/-- Claim C2, amended: the rules built on the two-argument `make_result` report
`start` equal to their final `position`, not to `i1`: this holds for
binary-variable-read (`r_var_t`) and advance-by-offset (`r_advance_t`).  The
identifier rule reports `start = i1 + 1` whenever its leading element is alphabetic
(so `[start, position)` spans only the alphanumeric tail, not the whole identifier),
and `start = i1` otherwise.  On success, `position` never precedes `start` for any of
these rules. -/
theorem claim2_start_fields {α : Type} :
    (∀ (var : List α) (i1 : Nat) (rem : List α),
        (r_var_run var i1 rem).2.start = (r_var_run var i1 rem).2.position)
  ∧ (∀ (offset i1 : Nat) (rem : List α),
        (r_advance_run offset i1 rem).start = (r_advance_run offset i1 rem).position)
  ∧ (∀ (isA isN : α → Bool) (i1 : Nat) (rem : List α),
        (r_ident_run isA isN i1 rem).start =
          i1 + (match rem with | [] => 0 | a :: _ => if isA a then 1 else 0))
  ∧ (∀ (isA isN : α → Bool) (i1 : Nat) (rem : List α),
        (r_ident_run isA isN i1 rem).matched = true →
        (r_ident_run isA isN i1 rem).start ≤ (r_ident_run isA isN i1 rem).position) := by
  refine ⟨fun var i1 rem => rfl, fun offset i1 rem => rfl, ?_, ?_⟩
  · intro isA isN i1 rem
    cases rem with
    | nil => simp [r_ident_run, r_pred_run]
    | cons a rest =>
      cases ha : isA a <;>
        simp [r_ident_run, r_pred_run, r_predstr_run, ha, Nat.add_sub_cancel_left]
  · intro isA isN i1 rem h
    cases rem with
    | nil => simp [r_ident_run, r_pred_run] at h
    | cons a rest =>
      cases ha : isA a with
      | false => simp [r_ident_run, r_pred_run, ha] at h
      | true =>
        simp only [r_ident_run, r_pred_run, r_predstr_run, ha, make_result3_matched,
          if_true, make_result3_position_true, make_result3_start] at h ⊢
        simp only [make_result3_position]
        split <;> omega

/-- Claim C2, witness for the amended statement at concrete inputs. -/
theorem claim2_witness :
    (r_var_run [(0 : Nat)] 0 [7]).2.start = (r_var_run [(0 : Nat)] 0 [7]).2.position ∧
    (r_advance_run 2 0 [(5 : Nat), 6]).start = (r_advance_run 2 0 [(5 : Nat), 6]).position ∧
    (r_ident_run (fun n : Nat => decide (n = 1)) (fun n => decide (n ≤ 2)) 0 [1, 2]).start =
      0 + 1 ∧
    (r_ident_run (fun n : Nat => decide (n = 1)) (fun n => decide (n ≤ 2)) 0 [1, 2]).start ≤
      (r_ident_run (fun n : Nat => decide (n = 1)) (fun n => decide (n ≤ 2)) 0 [1, 2]).position :=
  ⟨claim2_start_fields.1 [0] 0 [7],
   claim2_start_fields.2.1 2 0 [5, 6],
   claim2_start_fields.2.2.1 _ _ 0 [1, 2],
   claim2_start_fields.2.2.2 _ _ 0 [1, 2] (by decide)⟩

/-- Claim C3, counterexample: the unbounded predicate-run terminal does not always
succeed — on the empty range it returns `matched = false` (`make_result(in != i1, ..)`
demands at least one satisfying element). -/
theorem claim3_counterexample :
    (r_predstr_run (fun _ : Nat => true) 0 []).matched = false := by
  decide

/-- Claim C3, amended: the unbounded predicate-run terminal succeeds iff at least one
leading element satisfies the predicate (it fails on the empty run, in particular
when the range is empty or the first element fails the predicate, with
`position = i1`); on success its position is the end of the maximal satisfying
run. -/
theorem claim3_predstr {α : Type} (pred : α → Bool) (i1 : Nat) (rem : List α) :
    ((r_predstr_run pred i1 rem).matched = true ↔ (rem.takeWhile pred).length ≠ 0)
  ∧ ((r_predstr_run pred i1 rem).matched = true →
      (r_predstr_run pred i1 rem).position = i1 + (rem.takeWhile pred).length)
  ∧ ((r_predstr_run pred i1 rem).matched = false →
      (r_predstr_run pred i1 rem).position = i1) := by
  refine ⟨by simp [r_predstr_run], ?_, ?_⟩
  · intro h
    simp only [r_predstr_run, make_result3_matched, decide_eq_true_eq] at h
    simp [r_predstr_run, make_result3_position, h]
  · intro h
    exact make_result3_position_of_failure _ _ _ h

/-- Claim C3, witness for the amended statement at concrete inputs. -/
theorem claim3_witness :
    (r_predstr_run (fun n : Nat => decide (n < 5)) 0 [1, 2, 9]).position =
      0 + ([(1 : Nat), 2, 9].takeWhile (fun n => decide (n < 5))).length ∧
    (r_predstr_run (fun n : Nat => decide (n < 5)) 3 [9, 1]).position = 3 :=
  ⟨(claim3_predstr _ 0 [1, 2, 9]).2.1 (by decide),
   (claim3_predstr _ 3 [9, 1]).2.2 (by decide)⟩

/-- Claim C4, counterexample: a single-letter identifier at end of input fails —
`r_ident_t` hands the position after the alphabetic element to the predicate-run
terminal, which demands at least one alphanumeric element. -/
theorem claim4_counterexample :
    (r_ident_run (fun _ : Nat => true) (fun _ : Nat => true) 0 [5]).matched = false := by
  decide

/-- Claim C4, amended: the identifier terminal matches one alphabetic element
followed by one or more alphanumeric elements — it succeeds iff the first element is
alphabetic and the second exists and is alphanumeric (so single-letter identifiers
fail), and on success its position is after the first element plus the maximal
alphanumeric run that follows. -/
theorem claim4_ident {α : Type} (isA isN : α → Bool) (i1 : Nat) (rem : List α) :
    ((r_ident_run isA isN i1 rem).matched = true ↔
      (match rem with
       | a :: b :: _ => isA a = true ∧ isN b = true
       | _ => False))
  ∧ ((r_ident_run isA isN i1 rem).matched = true →
      (r_ident_run isA isN i1 rem).position = i1 + 1 + (rem.tail.takeWhile isN).length) := by
  cases rem with
  | nil => simp [r_ident_run, r_pred_run]
  | cons a rest =>
    cases ha : isA a with
    | false => cases rest <;> simp [r_ident_run, r_pred_run, ha]
    | true =>
      cases rest with
      | nil => simp [r_ident_run, r_pred_run, r_predstr_run, ha, Nat.add_sub_cancel_left]
      | cons b rest2 =>
        cases hb : isN b <;>
          simp [r_ident_run, r_pred_run, r_predstr_run, ha, hb,
            Nat.add_sub_cancel_left, List.takeWhile_cons]

/-- Claim C4, witness for the amended statement at a concrete input. -/
theorem claim4_witness :
    (r_ident_run (fun n : Nat => decide (n = 1)) (fun n => decide (n ≤ 2)) 0
        [1, 2, 2, 3]).position =
      0 + 1 + ([(1 : Nat), 2, 2, 3].tail.takeWhile (fun n => decide (n ≤ 2))).length :=
  (claim4_ident _ _ 0 [1, 2, 2, 3]).2 (by decide)

/-- Claim C5: evaluation at the failing input.  A fixed-size array of one 2-byte
element read against a 1-byte input: the element-wise binary-variable-read fails
(third conjunct), the array is left partially filled (second conjunct), yet
`r_array_t` reports `matched = true` (first conjunct), because it returns
`make_result(s == N, i)` and `++s` ran for the failed read of the last element —
contradicting the claim and the failure semantics the spec gives every terminal. -/
theorem claim5_bug_eval :
    (r_array_run [[(0 : Nat), 0]] 0 [7]).2.matched = true ∧
    (r_array_run [[(0 : Nat), 0]] 0 [7]).1 = [[7, 0]] ∧
    (r_var_run [(0 : Nat), 0] 0 [7]).2.matched = false := by
  decide

/-- Claim C6: the binary-variable-read of a target of byte size `N = var.length`
succeeds iff at least `N` bytes remain; on success it copies exactly the next `N`
bytes and advances by `N`; on failure fewer than `N` bytes were available and it
copied all of them into the variable, leaving the remaining target bytes
untouched. -/
theorem claim6_var {α : Type} (var : List α) (i1 : Nat) (rem : List α) :
    ((r_var_run var i1 rem).2.matched = true ↔ var.length ≤ rem.length)
  ∧ ((r_var_run var i1 rem).2.matched = true →
      (r_var_run var i1 rem).1 = rem.take var.length ∧
      (r_var_run var i1 rem).2.position = i1 + var.length)
  ∧ ((r_var_run var i1 rem).2.matched = false →
      rem.length < var.length ∧
      (r_var_run var i1 rem).1 = rem ++ var.drop rem.length ∧
      (r_var_run var i1 rem).2.position = i1 + rem.length) := by
  have hs := r_var_go_snd var rem
  have hf := r_var_go_fst var rem
  have hm : (r_var_run var i1 rem).2.matched = true ↔ var.length ≤ rem.length := by
    simp only [r_var_run, make_result_matched, decide_eq_true_eq, hs]
    omega
  refine ⟨hm, ?_, ?_⟩
  · intro h
    have hle : var.length ≤ rem.length := hm.mp h
    have hmin : min var.length rem.length = var.length := Nat.min_eq_left hle
    constructor
    · simp only [r_var_run]
      rw [hf, hmin, List.drop_length, List.append_nil]
    · simp only [r_var_run, make_result_position]
      rw [hs, hmin]
  · intro h
    have hlt : rem.length < var.length := by
      rcases Nat.lt_or_ge rem.length var.length with h1 | h1
      · exact h1
      · have h2 := hm.mpr h1
        rw [h] at h2
        simp at h2
    have hmin : min var.length rem.length = rem.length :=
      Nat.min_eq_right (Nat.le_of_lt hlt)
    refine ⟨hlt, ?_, ?_⟩
    · simp only [r_var_run]
      rw [hf, hmin, List.take_length]
    · simp only [r_var_run, make_result_position]
      rw [hs, hmin]

/-- Claim C6, witness: the spec scenario — a 4-byte read against a 2-byte input fails
with exactly the 2 available bytes copied — plus a successful 1-byte read. -/
theorem claim6_witness :
    ((2 : Nat) < 4 ∧
      (r_var_run [(0 : Nat), 0, 0, 0] 0 [5, 6]).1 = [5, 6] ++ [(0 : Nat), 0, 0, 0].drop 2 ∧
      (r_var_run [(0 : Nat), 0, 0, 0] 0 [5, 6]).2.position = 0 + 2) ∧
    ((r_var_run [(0 : Nat)] 0 [5, 6]).1 = [(5 : Nat), 6].take 1 ∧
      (r_var_run [(0 : Nat)] 0 [5, 6]).2.position = 0 + 1) :=
  ⟨(claim6_var [0, 0, 0, 0] 0 [5, 6]).2.2 (by decide),
   (claim6_var [0] 0 [5, 6]).2.1 (by decide)⟩

/-- Claim C7, counterexample: invoking the same growable-sequence-read rule value a
second time extends the previously captured sequence instead of overwriting it — the
container is cleared in the constructor, not in `operator()`.  After parsing `[4]`
and then `[5]` with the same rule (element size 1, min 0, max 1), the container holds
both elements. -/
theorem claim7_counterexample :
    (r_sequence_run 1 0 1
        ((r_sequence_run 1 0 1 (r_sequence_init [[(99 : Nat)]]) 0 [4]).1) 0 [5]).1 =
      [[4], [5]] ∧
    ([[(4 : Nat)], [5]] : List (List Nat)) ≠ [[5]] := by
  decide

/-- Claim C7, amended: the target sequence is cleared once, by the rule's
constructor, not on each invocation; each invocation appends the elements it reads to
the container's current contents (so a second parse with the same rule value extends
rather than overwrites), reading until the input is exhausted, an element-read fails,
or `max_occurrence` iterations have run; it succeeds iff the cumulative element count
in the container is at least `min_occurrence`. -/
theorem claim7_sequence {α : Type} [Inhabited α] :
    (∀ buf : List (List α), r_sequence_init buf = [])
  ∧ (∀ (n minOcc maxOcc : Nat) (buf : List (List α)) (i1 : Nat) (rem : List α),
      ∃ tl, (r_sequence_run n minOcc maxOcc buf i1 rem).1 = buf ++ tl)
  ∧ (∀ (n minOcc maxOcc : Nat) (buf : List (List α)) (i1 : Nat) (rem : List α),
      ((r_sequence_run n minOcc maxOcc buf i1 rem).2.matched = true ↔
        minOcc ≤ (r_sequence_run n minOcc maxOcc buf i1 rem).1.length)) := by
  refine ⟨fun buf => rfl, ?_, ?_⟩
  · intro n minOcc maxOcc buf i1 rem
    simpa [r_sequence_run] using r_seq_go_fst_append n maxOcc buf i1 rem
  · intro n minOcc maxOcc buf i1 rem
    simp [r_sequence_run]

/-- Claim C8: the bounded predicate-run consumes the maximal satisfying prefix capped
at `max`, succeeds iff that count is at least `min`, reports on success a run length
within `[min, max]` ending at `i1 + count`, and fails whenever fewer than `min`
consecutive elements satisfy the predicate. -/
theorem claim8_predstr_bounded {α : Type} (pred : α → Bool) (minOcc maxOcc i1 : Nat)
    (rem : List α) :
    ((r_predstr_b_run pred minOcc maxOcc i1 rem).matched = true ↔
      minOcc ≤ min maxOcc (rem.takeWhile pred).length)
  ∧ ((r_predstr_b_run pred minOcc maxOcc i1 rem).matched = true →
      minOcc ≤ min maxOcc (rem.takeWhile pred).length ∧
      min maxOcc (rem.takeWhile pred).length ≤ maxOcc ∧
      (r_predstr_b_run pred minOcc maxOcc i1 rem).position =
        i1 + min maxOcc (rem.takeWhile pred).length)
  ∧ ((rem.takeWhile pred).length < minOcc →
      (r_predstr_b_run pred minOcc maxOcc i1 rem).matched = false) := by
  have hc := predCount_eq pred maxOcc rem
  have hm : (r_predstr_b_run pred minOcc maxOcc i1 rem).matched = true ↔
      minOcc ≤ min maxOcc (rem.takeWhile pred).length := by
    simp [r_predstr_b_run, hc]
  refine ⟨hm, ?_, ?_⟩
  · intro h
    have hle := hm.mp h
    exact ⟨hle, Nat.min_le_left _ _, by simp [r_predstr_b_run, make_result3, hc, hle]⟩
  · intro h
    simp only [r_predstr_b_run, make_result3_matched, decide_eq_false_iff_not, hc]
    omega

/-- Claim C8, witness: with `min = 2`, `max = 3` and predicate "less than 5", input
`[1, 1, 1, 1]` succeeds consuming 3 elements, and input `[1, 9]` fails (run of 1). -/
theorem claim8_witness :
    (2 ≤ min 3 ([(1 : Nat), 1, 1, 1].takeWhile (fun n => decide (n < 5))).length ∧
      min 3 ([(1 : Nat), 1, 1, 1].takeWhile (fun n => decide (n < 5))).length ≤ 3 ∧
      (r_predstr_b_run (fun n : Nat => decide (n < 5)) 2 3 0 [1, 1, 1, 1]).position =
        0 + min 3 ([(1 : Nat), 1, 1, 1].takeWhile (fun n => decide (n < 5))).length) ∧
    (r_predstr_b_run (fun n : Nat => decide (n < 5)) 2 3 0 [1, 9]).matched = false :=
  ⟨(claim8_predstr_bounded _ 2 3 0 [1, 1, 1, 1]).2.1 (by decide),
   (claim8_predstr_bounded _ 2 3 0 [1, 9]).2.2 (by decide)⟩

/-- Claim C9: the difference operator `r1 - r2` (which the source builds as
`r_and_t<r_not_t<R2>, R1>`) is extensionally equal to the spec-side composite "require
`r2` to fail at `i1`, non-consuming, then match `r1` from `i1`", for every pair of
rules and every input range. -/
theorem claim9_difference {α : Type} (r1 r2 : Rule α) (i1 : Nat) (rem : List α) :
    opSub r1 r2 i1 rem = diff_spec r1 r2 i1 rem := by
  unfold opSub r_and_run r_not_run diff_spec
  cases h : (r2 i1 rem).matched <;>
    simp [h, make_result, Nat.sub_self, List.drop_zero]

/-- Claim C10: the C-string string-literal terminal built from a null pointer behaves
exactly like one built from the empty literal: it succeeds consuming nothing
(`matched = true`, `position = start = i1`) on every input range, without inspecting
the pointer. -/
theorem claim10_null_str {α : Type} [DecidableEq α] (i1 : Nat) (rem : List α) :
    r_str_run (none : Option (List α)) i1 rem = ⟨true, i1, i1⟩ ∧
    r_str_run (none : Option (List α)) i1 rem = r_str_run (some ([] : List α)) i1 rem :=
  ⟨rfl, rfl⟩

end Axe
